import Mathlib

/-!
Shallow embedding of `src/gambitai/ecs/components.py` (the gambit-ai
chess data-model components) and proofs of the specification claims
about them.

Python conventions are modelled explicitly:
* Python `int` is `Int`.
* A Python operation that can raise is `Option`-valued (`none` = an
  exception was raised) or `Except`-valued when the exception kind matters.
* Mutation of a `GameState` is modelled as a function returning the
  updated state.
-/

namespace GambitAI

/-- The `PieceType` enumeration (`PAWN = 1 .. KING = 6`). -/
inductive PieceType where
  | PAWN
  | KNIGHT
  | BISHOP
  | ROOK
  | QUEEN
  | KING
deriving DecidableEq

/-- `PieceType.__str__`: `self.name.title()`. -/
def PieceType.title : PieceType → String
  | .PAWN => "Pawn"
  | .KNIGHT => "Knight"
  | .BISHOP => "Bishop"
  | .ROOK => "Rook"
  | .QUEEN => "Queen"
  | .KING => "King"

/-- The `PieceColor` enumeration (`WHITE = 1`, `BLACK = -1`). -/
inductive PieceColor where
  | WHITE
  | BLACK
deriving DecidableEq

/-- The `GameStatus` enumeration. -/
inductive GameStatus where
  | ACTIVE
  | CHECK
  | CHECKMATE
  | STALEMATE
  | DRAW
deriving DecidableEq

/-- Python `str.lower()`, character by character; on the pure-ASCII
one-letter strings it is applied to here this is exactly Python's
behavior. -/
def pyLower (s : String) : String :=
  String.mk (s.data.map Char.toLower)

/-- The frozen dataclass `Position` with integer fields `x`, `y`. -/
structure Position where
  x : Int
  y : Int
deriving DecidableEq

/-- Python string indexing `s[i]` on a string given as a character list:
a non-negative index must be below the length, a negative index is offset
by the length; anything else raises `IndexError` (modelled as `none`). -/
def pyStrIndex (s : List Char) (i : Int) : Option Char :=
  if 0 ≤ i then s[i.toNat]?
  else if i + s.length < 0 then none
  else s[(i + s.length).toNat]?

/-- The file letters `"abcdefgh"` from `Position.__str__`. -/
def files : List Char := ['a', 'b', 'c', 'd', 'e', 'f', 'g', 'h']

/-- The rank digits `"87654321"` from `Position.__str__`. -/
def ranks : List Char := ['8', '7', '6', '5', '4', '3', '2', '1']

/-- `Position.__str__`: `files[self.x] + ranks[self.y]`; `none` models the
`IndexError` Python raises when an index is out of range. -/
def Position.str (p : Position) : Option String :=
  (pyStrIndex files p.x).bind fun f =>
    (pyStrIndex ranks p.y).map fun r => String.mk [f, r]

/-- `Position.__eq__` as generated by `@dataclass(frozen=True)`:
field-by-field comparison of `(x, y)`. -/
def Position.pyEq (a b : Position) : Bool :=
  a.x == b.x && a.y == b.y

/-- The key hashed by the generated `Position.__hash__`, which is
`hash((self.x, self.y))`: Python's `hash` is a deterministic function of
this tuple, so two positions with equal keys have equal hashes. -/
def Position.hashKey (a : Position) : Int × Int :=
  (a.x, a.y)

/-- `Position` comparison with `<`: `@dataclass(frozen=True)` leaves
`order` at its default `False`, so no `__lt__` is generated and Python
raises `TypeError` on any comparison of two positions. -/
def Position.pyLt (_ _ : Position) : Except String Bool :=
  .error "TypeError"

/-- The dataclass `Piece` (the `symbols` table is not needed by any claim). -/
structure Piece where
  type : PieceType
  color : PieceColor
  has_moved : Bool := false
  value : Int := 1
deriving DecidableEq

/-- `Piece.to_fen`: single letter by kind, lowercase iff the color is black. -/
def Piece.to_fen (p : Piece) : String :=
  let symbol :=
    match p.type with
    | .PAWN => "P"
    | .KNIGHT => "N"
    | .BISHOP => "B"
    | .ROOK => "R"
    | .QUEEN => "Q"
    | .KING => "K"
  if p.color = .WHITE then symbol else pyLower symbol

/-- The dataclass `Move`. -/
structure Move where
  from_pos : Position
  to_pos : Position
  piece : Piece
  captured_piece : Option Piece := none
  is_castling : Bool := false
  is_en_passant : Bool := false
  is_promotion : Bool := false
  promotion_piece : Option PieceType := none
deriving DecidableEq

/-- `Move.__str__`. Python truthiness is made explicit: `self.captured_piece`
is truthy iff it is not `None` (a `Piece` instance is always truthy), and
`self.promotion_piece` is truthy iff it is not `None` (enum members are
always truthy). `none` models the `IndexError` propagated from rendering an
out-of-range position. -/
def Move.str (m : Move) : Option String :=
  if m.is_castling then
    some (if m.to_pos.x > m.from_pos.x then "O-O" else "O-O-O")
  else
    (m.from_pos.str).bind fun f =>
      (m.to_pos.str).map fun t =>
        let s := m.piece.to_fen ++ f ++ t
        let s := s ++
          (match m.captured_piece with
           | some c => "x" ++ c.to_fen
           | none => "")
        let s := s ++ (if m.is_en_passant then "e.p." else "")
        let s := s ++
          (match m.is_promotion, m.promotion_piece with
           | true, some k => "=" ++ k.title
           | _, _ => "")
        s

/-- The dataclass `GameState`; the `pieces` dict is modelled as an
association list. The `__post_init__` `None`-coalescing branches are dead
code for these defaults and are not modelled. -/
structure GameState where
  current_turn : PieceColor := .WHITE
  status : GameStatus := .ACTIVE
  castling_rights : List Int := [1, 1, 1, 1]
  en_passant_target : Option Position := none
  move_history : List Move := []
  halfmove_clock : Int := 0
  fullmove_number : Int := 1
  captured_pieces : List Piece := []
  check_positions : List Position := []
  pieces : List (Position × Piece) := []
deriving DecidableEq

/-- A freshly constructed `GameState()` with all defaults. -/
def GameState.init : GameState := {}

/-- `GameState.add_move`; the method's five sequential statements each
touch a distinct field (and the `current_turn` flip reads a field no
earlier statement wrote), so the update is given as one record update. -/
def GameState.add_move (s : GameState) (move : Move) : GameState :=
  { s with
    move_history := s.move_history ++ [move]
    halfmove_clock :=
      if move.piece.type = PieceType.PAWN ∨ move.captured_piece ≠ none then 0
      else s.halfmove_clock + 1
    fullmove_number :=
      if move.piece.color = PieceColor.BLACK then s.fullmove_number + 1
      else s.fullmove_number
    captured_pieces :=
      s.captured_pieces ++
        (match move.captured_piece with
         | some c => [c]
         | none => [])
    current_turn :=
      if s.current_turn = PieceColor.WHITE then PieceColor.BLACK
      else PieceColor.WHITE }

/-- `GameState.get_last_move`. -/
def GameState.get_last_move (s : GameState) : Option Move :=
  s.move_history.getLast?

/-- `GameState.is_in_check`. -/
def GameState.is_in_check (s : GameState) : Bool :=
  s.check_positions.length > 0

/-- `GameState.can_castle`; `(xs[i]?).map ...` models Python's
`self.castling_rights[i] == 1`, with `none` standing for the `IndexError`
raised when the list is shorter than the index requires. -/
def GameState.can_castle (s : GameState) (side : String) : Option Bool :=
  if side = "K" then (s.castling_rights[0]?).map (fun v => v == 1)
  else if side = "Q" then (s.castling_rights[1]?).map (fun v => v == 1)
  else if side = "k" then (s.castling_rights[2]?).map (fun v => v == 1)
  else if side = "q" then (s.castling_rights[3]?).map (fun v => v == 1)
  else some false

/-- Modelled from the spec's words for comparison with `Piece.to_fen`
(refinement only): the single-letter notation form, mapping kind to
{P, N, B, R, Q, K}, lowercase iff the color is black. -/
def Piece.specLetter (p : Piece) : String :=
  let letter :=
    match p.type with
    | .PAWN => "P"
    | .KNIGHT => "N"
    | .BISHOP => "B"
    | .ROOK => "R"
    | .QUEEN => "Q"
    | .KING => "K"
  if p.color = .BLACK then pyLower letter else letter

/-- Modelled from the spec's words for comparison with `PieceType.title`
(refinement only): the title-cased kind name. -/
def PieceType.specTitleName : PieceType → String
  | .PAWN => "Pawn"
  | .KNIGHT => "Knight"
  | .BISHOP => "Bishop"
  | .ROOK => "Rook"
  | .QUEEN => "Queen"
  | .KING => "King"

/-- Modelled from the spec's words for comparison with `Move.str`
(refinement only): castling renders as "O-O" when the destination file
exceeds the source file and "O-O-O" otherwise; any other move is the
piece's notation letter, the two algebraic squares, then "x" plus the
captured piece's letter when a capture occurred, "e.p." when en passant,
and "=" plus the title-cased promotion kind name when the move is a
promotion. -/
def Move.specRender (m : Move) : Option String :=
  if m.is_castling then
    some (if m.to_pos.x > m.from_pos.x then "O-O" else "O-O-O")
  else
    (m.from_pos.str).bind fun f =>
      (m.to_pos.str).map fun t =>
        m.piece.specLetter ++ f ++ t ++
          (match m.captured_piece with
           | some c => "x" ++ c.specLetter
           | none => "") ++
          (if m.is_en_passant then "e.p." else "") ++
          (if m.is_promotion then
            "=" ++
              (match m.promotion_piece with
               | some k => k.specTitleName
               | none => "")
           else "")

/-- A sample white pawn move, used to instantiate witnesses. -/
def sampleWhitePawnMove : Move :=
  { from_pos := ⟨0, 6⟩
    to_pos := ⟨0, 4⟩
    piece := { type := .PAWN, color := .WHITE } }

/-- A sample black knight move, used to instantiate witnesses. -/
def sampleBlackKnightMove : Move :=
  { from_pos := ⟨1, 0⟩
    to_pos := ⟨2, 2⟩
    piece := { type := .KNIGHT, color := .BLACK } }

/-- A sample white pawn promotion to queen, used to instantiate witnesses. -/
def samplePromotionMove : Move :=
  { from_pos := ⟨0, 1⟩
    to_pos := ⟨0, 0⟩
    piece := { type := .PAWN, color := .WHITE }
    is_promotion := true
    promotion_piece := some .QUEEN }

/-- A sample move with the promotion flag set but no promotion piece,
used to instantiate witnesses. -/
def samplePromotionNoneMove : Move :=
  { from_pos := ⟨0, 1⟩
    to_pos := ⟨0, 0⟩
    piece := { type := .PAWN, color := .WHITE }
    is_promotion := true }

/-- `to_fen` agrees with the spec's notation-letter mapping. -/
theorem to_fen_eq_specLetter (p : Piece) : p.to_fen = p.specLetter := by
  rcases p with ⟨t, c, hm, v⟩
  cases t <;> cases c <;> rfl

/-- `PieceType.title` agrees with the spec's title-cased kind name. -/
theorem title_eq_specTitleName (k : PieceType) :
    k.title = k.specTitleName := by
  cases k <;> rfl

/-- A character produced by Python string indexing is a character of the
indexed string. -/
theorem pyStrIndex_mem {s : List Char} {i : Int} {c : Char}
    (h : pyStrIndex s i = some c) : c ∈ s := by
  unfold pyStrIndex at h
  split at h
  · obtain ⟨hlt, he⟩ := List.getElem?_eq_some.mp h
    exact he ▸ List.getElem_mem hlt
  · split at h
    · cases h
    · obtain ⟨hlt, he⟩ := List.getElem?_eq_some.mp h
      exact he ▸ List.getElem_mem hlt

/-- `to_fen` never contains the character '='. -/
theorem to_fen_no_eq_char (p : Piece) : ('=' : Char) ∉ p.to_fen.data := by
  rcases p with ⟨t, c, hm, v⟩
  cases t <;> cases c <;> simp [Piece.to_fen] <;> decide

/-- A rendered position never contains the character '='. -/
theorem position_str_no_eq_char (p : Position) (out : String)
    (h : p.str = some out) : ('=' : Char) ∉ out.data := by
  unfold Position.str at h
  rcases hf : pyStrIndex files p.x with _ | f <;> rw [hf] at h
  · cases h
  rcases hr : pyStrIndex ranks p.y with _ | r <;> rw [hr] at h
  · cases h
  have hfm : f ∈ files := pyStrIndex_mem hf
  have hrm : r ∈ ranks := pyStrIndex_mem hr
  have hout : out = String.mk [f, r] := by
    simp [Option.bind, Option.map] at h
    exact h.symm
  subst hout
  intro hmem
  have hfr : ('=' : Char) = f ∨ ('=' : Char) = r := by
    simpa using hmem
  rcases hfr with h1 | h1
  · rw [← h1] at hfm
    exact absurd hfm (by decide)
  · rw [← h1] at hrm
    exact absurd hrm (by decide)

/-- Claim C1: after `add_move`, `halfmove_clock` is 0 if the moved piece is
a pawn or a capture occurred, and otherwise is the prior clock plus 1,
regardless of the prior value. -/
theorem add_move_halfmove_clock (s : GameState) (m : Move) :
    (s.add_move m).halfmove_clock =
      if m.piece.type = PieceType.PAWN ∨ m.captured_piece.isSome then 0
      else s.halfmove_clock + 1 := by
  rcases h : m.captured_piece with _ | c <;>
    by_cases hp : m.piece.type = PieceType.PAWN <;>
      simp [GameState.add_move, h, hp]

/-- Claim C2: `add_move` increments `fullmove_number` by exactly 1 iff the
moved piece is black; a fresh state starts at 1, stays at 1 after any white
move, and reaches 2 after a white move followed by a black move. -/
theorem add_move_fullmove_number (s : GameState) (m : Move) :
    ((s.add_move m).fullmove_number = s.fullmove_number + 1 ↔
      m.piece.color = PieceColor.BLACK) ∧
    (m.piece.color ≠ PieceColor.BLACK →
      (s.add_move m).fullmove_number = s.fullmove_number) ∧
    GameState.init.fullmove_number = 1 ∧
    (∀ mw : Move, mw.piece.color = PieceColor.WHITE →
      (GameState.init.add_move mw).fullmove_number = 1) ∧
    (∀ mw mb : Move, mw.piece.color = PieceColor.WHITE →
      mb.piece.color = PieceColor.BLACK →
      ((GameState.init.add_move mw).add_move mb).fullmove_number = 2) := by
  refine ⟨?_, ?_, rfl, ?_, ?_⟩
  · by_cases hb : m.piece.color = PieceColor.BLACK <;>
      simp [GameState.add_move, hb]
  · intro hb
    simp [GameState.add_move, hb]
  · intro mw hw
    have : mw.piece.color ≠ PieceColor.BLACK := by
      rw [hw]; intro hc; cases hc
    simp [GameState.add_move, this, GameState.init]
  · intro mw mb hw hb
    have : mw.piece.color ≠ PieceColor.BLACK := by
      rw [hw]; intro hc; cases hc
    simp [GameState.add_move, this, hb, GameState.init]

/-- Witness for C2: instantiated on a fresh state with the sample white
pawn move and the sample black knight move. -/
theorem add_move_fullmove_number_witness :
    ((GameState.init.add_move sampleWhitePawnMove).add_move
      sampleBlackKnightMove).fullmove_number = 2 :=
  (add_move_fullmove_number GameState.init sampleWhitePawnMove).2.2.2.2
    sampleWhitePawnMove sampleBlackKnightMove rfl rfl

/-- Claim C3: `add_move` always flips the active color: white becomes
black and black becomes white. -/
theorem add_move_flips_turn (s : GameState) (m : Move) :
    (s.current_turn = PieceColor.WHITE →
      (s.add_move m).current_turn = PieceColor.BLACK) ∧
    (s.current_turn = PieceColor.BLACK →
      (s.add_move m).current_turn = PieceColor.WHITE) ∧
    (s.add_move m).current_turn ≠ s.current_turn := by
  rcases h : s.current_turn <;> simp [GameState.add_move, h]

/-- Witness for C3: the fresh state has white to move and the sample white
pawn move hands the turn to black. -/
theorem add_move_flips_turn_witness :
    (GameState.init.add_move sampleWhitePawnMove).current_turn =
      PieceColor.BLACK :=
  (add_move_flips_turn GameState.init sampleWhitePawnMove).1 rfl

/-- Claim C4: `add_move` never fails (it is a total function here) and
leaves `pieces`, `check_positions`, `status`, `castling_rights` and
`en_passant_target` untouched, for every state and move. -/
theorem add_move_frame (s : GameState) (m : Move) :
    (s.add_move m).pieces = s.pieces ∧
    (s.add_move m).check_positions = s.check_positions ∧
    (s.add_move m).status = s.status ∧
    (s.add_move m).castling_rights = s.castling_rights ∧
    (s.add_move m).en_passant_target = s.en_passant_target := by
  refine ⟨rfl, rfl, rfl, rfl, rfl⟩

/-- Claim C8: `add_move` appends exactly the captured piece (when present)
to `captured_pieces`, leaves that list's length unchanged when no capture
occurred, and unconditionally appends the move to `move_history`. -/
theorem add_move_captures_and_history (s : GameState) (m : Move) :
    (s.add_move m).captured_pieces =
      s.captured_pieces ++
        (match m.captured_piece with
         | some c => [c]
         | none => []) ∧
    (m.captured_piece.isSome →
      ((s.add_move m).captured_pieces).length =
        s.captured_pieces.length + 1) ∧
    (m.captured_piece = none →
      ((s.add_move m).captured_pieces).length = s.captured_pieces.length) ∧
    (s.add_move m).move_history = s.move_history ++ [m] := by
  rcases h : m.captured_piece with _ | c <;>
    simp [GameState.add_move, h]

/-- Witness for C8: a capture move on the fresh state grows
`captured_pieces` from length 0 to length 1. -/
theorem add_move_captures_and_history_witness :
    ((GameState.init.add_move
      { sampleWhitePawnMove with
        captured_piece := some { type := .PAWN, color := .BLACK } })
      |>.captured_pieces).length = GameState.init.captured_pieces.length + 1 :=
  (add_move_captures_and_history GameState.init
    { sampleWhitePawnMove with
      captured_piece := some { type := .PAWN, color := .BLACK } }).2.1 rfl

/-- Claim C5: rendering a move matches the spec's description — castling
as "O-O"/"O-O-O" by file comparison, otherwise notation letter plus the
two algebraic squares, with capture, en-passant and promotion suffixes —
for every move satisfying the spec's own invariant that a promotion move
carries a promotion kind. -/
theorem move_str_matches_spec (m : Move)
    (h : m.is_promotion = true → m.promotion_piece ≠ none) :
    m.str = m.specRender := by
  cases hcb : m.is_castling
  case true => simp [Move.str, Move.specRender, hcb]
  case false =>
  rcases hf : m.from_pos.str with _ | f
  · simp [Move.str, Move.specRender, hcb, hf]
  rcases ht : m.to_pos.str with _ | t
  · simp [Move.str, Move.specRender, hcb, hf, ht]
  rcases hp : m.is_promotion
  · rcases hcap : m.captured_piece with _ | c <;>
      simp [Move.str, Move.specRender, hcb, hf, ht, hp, hcap,
        to_fen_eq_specLetter]
  · have hk := h hp
    rcases hkk : m.promotion_piece with _ | k
    · exact absurd hkk hk
    rcases hcap : m.captured_piece with _ | c <;>
      simp [Move.str, Move.specRender, hcb, hf, ht, hp, hkk, hcap,
        to_fen_eq_specLetter, title_eq_specTitleName]

/-- Witness for C5: the sample promotion move renders identically under
the code and the spec description, namely as "Pa7a8=Queen". -/
theorem move_str_matches_spec_witness :
    Move.str samplePromotionMove = Move.specRender samplePromotionMove ∧
    Move.str samplePromotionMove = some "Pa7a8=Queen" :=
  ⟨move_str_matches_spec samplePromotionMove (by decide), by decide⟩

/-- Claim C6: `can_castle` reads the castling-rights entry at index 0 for
"K", 1 for "Q", 2 for "k", 3 for "q", and returns false (without failing)
on every other string. -/
theorem can_castle_spec (s : GameState) (side : String) :
    s.can_castle "K" = (s.castling_rights[0]?).map (fun v => v == 1) ∧
    s.can_castle "Q" = (s.castling_rights[1]?).map (fun v => v == 1) ∧
    s.can_castle "k" = (s.castling_rights[2]?).map (fun v => v == 1) ∧
    s.can_castle "q" = (s.castling_rights[3]?).map (fun v => v == 1) ∧
    (side ≠ "K" → side ≠ "Q" → side ≠ "k" → side ≠ "q" →
      s.can_castle side = some false) := by
  refine ⟨rfl, rfl, rfl, rfl, ?_⟩
  intro h1 h2 h3 h4
  simp [GameState.can_castle, h1, h2, h3, h4]

/-- Witness for C6: on the fresh state the unrecognized code "x" yields
false and the code "K" yields true. -/
theorem can_castle_spec_witness :
    GameState.init.can_castle "x" = some false ∧
    GameState.init.can_castle "K" = some true :=
  ⟨(can_castle_spec GameState.init "x").2.2.2.2
      (by decide) (by decide) (by decide) (by decide),
    by decide⟩

/-- Claim C7: for in-range coordinates the algebraic rendering is the
file letter at index x of "abcdefgh" followed by the rank digit at index
y of "87654321"; in particular (0,0) renders "a8" and (7,7) renders "h1". -/
theorem position_str_algebraic (x y : Int)
    (hx0 : 0 ≤ x) (hx7 : x ≤ 7) (hy0 : 0 ≤ y) (hy7 : y ≤ 7) :
    (Position.mk x y).str =
      (files[x.toNat]?).bind (fun f =>
        (ranks[y.toNat]?).map (fun r => String.mk [f, r])) ∧
    ((Position.mk x y).str).isSome = true ∧
    (Position.mk 0 0).str = some "a8" ∧
    (Position.mk 7 7).str = some "h1" := by
  refine ⟨?_, ?_, by decide, by decide⟩
  · unfold Position.str pyStrIndex
    rw [if_pos hx0, if_pos hy0]
  · interval_cases x <;> interval_cases y <;> rfl

/-- Witness for C7: instantiated at the corner (0,0), which renders "a8". -/
theorem position_str_algebraic_witness :
    (Position.mk 0 0).str = some "a8" :=
  (position_str_algebraic 0 0 (by decide) (by decide)
    (by decide) (by decide)).2.2.1

/-- Counterexample to C9 as stated: positions are not ordered by (x, y) —
comparing ⟨0,0⟩ with ⟨1,1⟩ raises TypeError (the frozen dataclass requests
no ordering) instead of returning true. -/
theorem position_order_counterexample :
    Position.pyLt ⟨0, 0⟩ ⟨1, 1⟩ ≠ Except.ok true :=
  fun h => Except.noConfusion h

/-- Claim C9 (amended): equality and hashing on positions are structural
on (x, y) — two positions are equal iff their components are, and equal
positions hash alike — while ordering comparisons are unsupported and
never produce a boolean. -/
theorem position_eq_hash_no_order (c1 c2 : Position) :
    (Position.pyEq c1 c2 = true ↔ c1.x = c2.x ∧ c1.y = c2.y) ∧
    (Position.pyEq c1 c2 = true →
      Position.hashKey c1 = Position.hashKey c2) ∧
    (∀ b : Bool, Position.pyLt c1 c2 ≠ Except.ok b) := by
  refine ⟨?_, ?_, ?_⟩
  · simp [Position.pyEq]
  · intro h
    simp [Position.pyEq] at h
    simp [Position.hashKey, h.1, h.2]
  · intro b h
    exact Except.noConfusion h

/-- Witness for C9 (amended): equal positions hash alike, and a concrete
comparison produces no boolean. -/
theorem position_eq_hash_no_order_witness :
    Position.hashKey ⟨1, 2⟩ = Position.hashKey ⟨1, 2⟩ ∧
    Position.pyLt ⟨1, 2⟩ ⟨3, 4⟩ ≠ Except.ok true :=
  ⟨(position_eq_hash_no_order ⟨1, 2⟩ ⟨1, 2⟩).2.1 (by decide),
    (position_eq_hash_no_order ⟨1, 2⟩ ⟨3, 4⟩).2.2 true⟩

/-- A non-castling, non-promotion move renders without any '='. -/
theorem move_str_no_eq_char_of_not_promotion (m : Move) (out : String)
    (hc : m.is_castling = false) (hp : m.is_promotion = false)
    (h : m.str = some out) : ('=' : Char) ∉ out.data := by
  unfold Move.str at h
  rw [hc] at h
  simp only [Bool.false_eq_true, if_false] at h
  rcases hfo : m.from_pos.str with _ | f <;> rw [hfo] at h
  · cases h
  rcases hto : m.to_pos.str with _ | t <;> rw [hto] at h
  · cases h
  simp only [Option.some_bind, Option.map_some', Option.some.injEq] at h
  subst h
  rcases hcap : m.captured_piece with _ | c <;>
    rcases hep : m.is_en_passant <;>
      simp [hp, hcap, hep, String.data_append]
  · exact ⟨to_fen_no_eq_char m.piece,
      position_str_no_eq_char _ _ hfo, position_str_no_eq_char _ _ hto⟩
  · exact ⟨to_fen_no_eq_char m.piece,
      position_str_no_eq_char _ _ hfo, position_str_no_eq_char _ _ hto⟩
  · exact ⟨to_fen_no_eq_char m.piece,
      position_str_no_eq_char _ _ hfo, position_str_no_eq_char _ _ hto,
      to_fen_no_eq_char c⟩
  · exact ⟨to_fen_no_eq_char m.piece,
      position_str_no_eq_char _ _ hfo, position_str_no_eq_char _ _ hto,
      to_fen_no_eq_char c⟩

/-- Claim C10: a non-castling move with the promotion flag set but no
promotion piece renders exactly as the same move without the promotion
flag — no failure, and no '=' anywhere in the output. -/
theorem move_str_promotion_none (m : Move)
    (hc : m.is_castling = false) (hp : m.is_promotion = true)
    (hk : m.promotion_piece = none) :
    m.str = Move.str { m with is_promotion := false } ∧
    ∀ out, m.str = some out → ('=' : Char) ∉ out.data := by
  have heq : m.str = Move.str { m with is_promotion := false } := by
    simp [Move.str, hc, hp, hk]
  refine ⟨heq, ?_⟩
  intro out hout
  exact move_str_no_eq_char_of_not_promotion
    { m with is_promotion := false } out hc rfl (heq ▸ hout)

/-- Witness for C10: the sample flag-only promotion move renders as the
plain pawn-push string "Pa7a8". -/
theorem move_str_promotion_none_witness :
    Move.str samplePromotionNoneMove =
      Move.str { samplePromotionNoneMove with is_promotion := false } ∧
    Move.str samplePromotionNoneMove = some "Pa7a8" :=
  ⟨(move_str_promotion_none samplePromotionNoneMove rfl rfl rfl).1,
    by decide⟩

end GambitAI
